import Mathlib

/-!
Verification of the glow model-import subsystem (ONNX/Caffe2 model loader and
the command-line loader tool).

The loader tool (`tools/loader/loader.cpp`) is embedded directly from its
source: image-normalization mode parsing, the image preprocessing loop, the
model-format selection logic and the external-input binding call.

The `ONNXModelLoader` class is declared in `include/glow/Importer/ONNX.h` but
its member function bodies are not part of the repository snapshot, so the
Name Registry, Weight Table, Graph Builder and Loader Facade behaviour is
modelled from the specification (sections 3, 4.2-4.5 and 7).
-/

namespace Glow

/-- Element kinds of tensors (FloatTy and IndexTy are the kinds used by the
loader tool). -/
inductive ElemKind where
  | FloatTy
  | IndexTy
deriving DecidableEq, Repr

/-- A dense tensor: element kind, shape and byte content. -/
structure Tensor where
  elemKind : ElemKind
  shape : List Nat
  bytes : List Nat
deriving DecidableEq, Repr

/-- Visibility of a Variable node: public variables are runtime-bound graph
inputs, private variables are internal weights. -/
inductive VisibilityKind where
  | Public
  | Private
deriving DecidableEq, Repr

/-- Node kinds: a Variable (placeholder or constant, carrying either a
reference to a caller-owned tensor or an owned weight tensor), an operator
node tagged with its operator type, or a Save/Output node. -/
inductive NodeKind where
  | varNode (vis : VisibilityKind) (tensorRef : Option Nat) (owned : Option Tensor)
  | operatorNode (typeTag : String)
  | save
deriving DecidableEq, Repr

/-- A graph node: kind, display name, and an ordered list of operand
references (indices of earlier nodes in the graph's node list). -/
structure Node where
  kind : NodeKind
  name : String
  operands : List Nat
deriving DecidableEq, Repr

/-- The error taxonomy of the import subsystem (spec section 7). -/
inductive LoadError where
  | ioFailure
  | formatFailure
  | unsupportedOperator
  | attributeShapeFailure
  | notFound
  | duplicateName
  | malformedGraph
  | invalidArgument
deriving DecidableEq, Repr

/-- One initializer entry of a deserialized model: name, element kind, shape
and raw bytes (spec section 4.1). -/
structure InitEntry where
  name : String
  elemKind : ElemKind
  shape : List Nat
  bytes : List Nat
deriving DecidableEq, Repr

/-- One operator entry of a deserialized model: type tag, ordered input names
and ordered output names (spec section 4.1). -/
structure OpEntry where
  typeTag : String
  inputs : List String
  outputs : List String
deriving DecidableEq, Repr

/-- The in-memory structured description produced by the Format Reader:
initializer list, operator list and the declared output names. -/
structure GraphProtoModel where
  initializers : List InitEntry
  operators : List OpEntry
  outputs : List String
deriving DecidableEq, Repr

/-- Modelled from the spec: the state of one `ONNXModelLoader` construction
call.  The member bodies behind `ONNX.h` are not in the snapshot; the fields
mirror `G_` (the graph node list), `nodeByName_` (the Name Registry),
and the Weight Table split into its recorded initializer entries and the
memoized materialized tensors of `getTensorByName`. -/
structure LoaderState where
  g : List Node
  nodeByName : List (String × Nat)
  initializers : List InitEntry
  tensorCache : List (String × Tensor)
deriving DecidableEq, Repr

/-- The empty state at the start of a construction call. -/
def emptyState : LoaderState := ⟨[], [], [], []⟩

/-- Look a name up in the Name Registry. -/
def lookupName (s : LoaderState) (name : String) : Option Nat :=
  (s.nodeByName.find? (fun p => p.1 == name)).map (fun p => p.2)

/-- Modelled from the spec: `hasNodeByName` is an existence check with no
mutation (spec section 4.2). -/
def hasNodeByName (s : LoaderState) (name : String) : Bool :=
  (lookupName s name).isSome

/-- Modelled from the spec: `getNodeByName` returns the registered node or
fails with a not-found kind (spec section 4.2). -/
def getNodeByName (s : LoaderState) (name : String) : Except LoadError Nat :=
  match lookupName s name with
  | some n => Except.ok n
  | none => Except.error LoadError.notFound

/-- Append a node to the graph, returning its index. -/
def addNode (s : LoaderState) (nd : Node) : LoaderState × Nat :=
  ({ s with g := s.g ++ [nd] }, s.g.length)

/-- Modelled from the spec: registering a name already present is rejected
with a duplicate-name failure and the registry is left unchanged; otherwise
the name is bound to the node (spec section 4.2). -/
def registerNode (s : LoaderState) (name : String) (nid : Nat) :
    LoaderState × Option LoadError :=
  if hasNodeByName s name then (s, some LoadError.duplicateName)
  else ({ s with nodeByName := s.nodeByName ++ [(name, nid)] }, none)

/-- Modelled from the spec: `getOrCreateNodeByName` returns the registered
node if present; otherwise it synthesizes a new public Variable node,
registers it and returns it (spec section 4.2). -/
def getOrCreateNodeByName (s : LoaderState) (name : String) :
    LoaderState × Nat :=
  match lookupName s name with
  | some n => (s, n)
  | none =>
    let nid := s.g.length
    ({ s with
        g := s.g ++ [⟨NodeKind.varNode VisibilityKind.Public none none, name, []⟩],
        nodeByName := s.nodeByName ++ [(name, nid)] }, nid)

/-- Materialize an initializer entry's raw bytes into a Tensor. -/
def materializeTensor (e : InitEntry) : Tensor :=
  { elemKind := e.elemKind, shape := e.shape, bytes := e.bytes }

/-- Modelled from the spec: `getTensorByName` resolves a previously recorded
initializer's raw bytes into a materialized Tensor, memoized so repeated
lookups return the same instance; it fails with a not-found kind if no
initializer was recorded under that name (spec section 4.2). -/
def getTensorByName (s : LoaderState) (name : String) :
    LoaderState × Except LoadError Tensor :=
  match s.tensorCache.find? (fun p => p.1 == name) with
  | some p => (s, Except.ok p.2)
  | none =>
    match s.initializers.find? (fun e => e.name == name) with
    | some e =>
      let t := materializeTensor e
      ({ s with tensorCache := s.tensorCache ++ [(name, t)] }, Except.ok t)
    | none => (s, Except.error LoadError.notFound)

/-- Modelled from the spec: the fixed dispatch table of operator translations
(spec section 4.3; the end-to-end scenario of section 8 uses Identity). -/
def supportedOps : List String := ["Identity", "Relu", "Add"]

/-- Resolve each declared input name through the Name Registry, creating a
placeholder on a miss (spec section 4.3). -/
def resolveInputs (s : LoaderState) (names : List String) :
    LoaderState × List Nat :=
  names.foldl
    (fun acc nm =>
      let r := getOrCreateNodeByName acc.1 nm
      (r.1, acc.2 ++ [r.2]))
    (s, [])

/-- Register each declared output name against the node that produces it
(spec section 4.3). -/
def registerOutputs (s : LoaderState) (names : List String) (nid : Nat) :
    LoaderState × Option LoadError :=
  match names with
  | [] => (s, none)
  | nm :: rest =>
    match registerNode s nm nid with
    | (s1, none) => registerOutputs s1 rest nid
    | (s1, some e) => (s1, some e)

/-- Modelled from the spec: `loadOperator` dispatches on the operator type
tag against the fixed table; an unrecognized tag fails with an
unsupported-operator kind and mutates nothing; a recognized tag resolves the
inputs, emits an operator node and registers the outputs (spec section 4.3). -/
def loadOperator (s : LoaderState) (op : OpEntry) :
    LoaderState × Option LoadError :=
  if op.typeTag ∈ supportedOps then
    let r1 := resolveInputs s op.inputs
    let r2 := addNode r1.1 ⟨NodeKind.operatorNode op.typeTag, op.outputs.headD "", r1.2⟩
    registerOutputs r2.1 op.outputs r2.2
  else (s, some LoadError.unsupportedOperator)

/-- Modelled from the spec: `loadNetwork` iterates operator entries strictly
in declared order, delegating to `loadOperator`, failing fast on the first
error (spec sections 4.3, 4.4 and 7). -/
def runOperators : LoaderState → List OpEntry → Except LoadError LoaderState
  | s, [] => Except.ok s
  | s, op :: rest =>
    match loadOperator s op with
    | (s1, none) => runOperators s1 rest
    | (_, some e) => Except.error e

/-- Modelled from the spec: `loadInitializers` constructs, for every
initializer entry, a private Variable node owning the materialized tensor and
registers it by name, recording the entry in the Weight Table
(spec section 4.4). -/
def loadInitializers : LoaderState → List InitEntry → Except LoadError LoaderState
  | s, [] => Except.ok s
  | s, e :: rest =>
    let t := materializeTensor e
    let r := addNode s ⟨NodeKind.varNode VisibilityKind.Private none (some t), e.name, []⟩
    match registerNode r.1 e.name r.2 with
    | (s2, none) =>
      loadInitializers { s2 with initializers := s2.initializers ++ [e] } rest
    | (_, some err) => Except.error err

/-- Modelled from the spec: for each external binding name, the facade either
reuses an existing registered node or creates a public Variable bound by
reference to the caller's supplied tensor (spec section 4.5). -/
def bindExternalInputs : LoaderState → List String → List Nat → LoaderState
  | s, [], _ => s
  | s, _, [] => s
  | s, nm :: nms, t :: ts =>
    match lookupName s nm with
    | some _ => bindExternalInputs s nms ts
    | none =>
      let nid := s.g.length
      bindExternalInputs
        { s with
            g := s.g ++ [⟨NodeKind.varNode VisibilityKind.Public (some t) none, nm, []⟩],
            nodeByName := s.nodeByName ++ [(nm, nid)] } nms ts

/-- The number of Save/Output nodes in a graph. -/
def countSaves (g : List Node) : Nat :=
  (g.filter (fun nd =>
    match nd.kind with
    | NodeKind.save => true
    | _ => false)).length

/-- The operand list of node `i`, or `[]` if `i` is out of range. -/
def operandsOf (g : List Node) (i : Nat) : List Nat :=
  match g.get? i with
  | some nd => nd.operands
  | none => []

/-- The nodes reachable from `i` by following operand references, explored
with the given fuel (paths of at most `fuel` nodes). -/
def reachableSet (g : List Node) : Nat → Nat → List Nat
  | 0, _ => []
  | fuel + 1, i => i :: ((operandsOf g i).map (reachableSet g fuel)).flatten

/-- True for a public Variable node. -/
def isPublicVar (nd : Node) : Bool :=
  match nd.kind with
  | NodeKind.varNode VisibilityKind.Public _ _ => true
  | _ => false

/-- True when some public Variable node is on an operand path from the root,
i.e. the root is transitively reachable from a public Variable along
dataflow edges (spec section 3 invariants). -/
def rootReachesPublicVar (g : List Node) (root : Nat) : Bool :=
  (reachableSet g (g.length + 1) root).any (fun i =>
    match g.get? i with
    | some nd => isPublicVar nd
    | none => false)

/-- Modelled from the spec: the Graph Builder resolves the designated output.
The explicit output declaration resolves the root directly; zero or multiple
plausible roots is a malformed-graph failure; a Save node with the resolved
operand is emitted and the builder validates the root: exactly one Save node
exists and it is transitively reachable from a public Variable
(spec sections 3, 4.4 and 4.5). -/
def resolveRoot (s : LoaderState) (declaredOutputs : List String) :
    Except LoadError (LoaderState × Nat) :=
  match declaredOutputs with
  | [out] =>
    match lookupName s out with
    | some n =>
      let r := addNode s ⟨NodeKind.save, "save_" ++ out, [n]⟩
      if countSaves r.1.g == 1 && rootReachesPublicVar r.1.g r.2 then
        Except.ok (r.1, r.2)
      else Except.error LoadError.malformedGraph
    | none => Except.error LoadError.notFound
  | _ => Except.error LoadError.malformedGraph

/-- The successfully constructed loader: its final state and the index of the
Save/Output node returned by `getRoot`. -/
structure ONNXModelLoader where
  state : LoaderState
  root : Nat
deriving DecidableEq, Repr

/-- `getRoot` returns the external output of the network. -/
def getRoot (ld : ONNXModelLoader) : Nat := ld.root

/-- Modelled from the spec: the Loader Facade construction call.  `fs` models
the file system as a partial map from file names to deserialized models.  The
binding name list and tensor list must have equal length (else an
invalid-argument failure, checked before the file is touched); then the
facade reads the file, loads initializers, binds external inputs, loads the
network and resolves the root (spec section 4.5). -/
def construct (fs : String → Option GraphProtoModel) (modelDescFilename : String)
    (names : List String) (tensors : List Nat) :
    Except LoadError ONNXModelLoader :=
  if names.length ≠ tensors.length then Except.error LoadError.invalidArgument
  else
    match fs modelDescFilename with
    | none => Except.error LoadError.ioFailure
    | some proto =>
      match loadInitializers emptyState proto.initializers with
      | Except.error e => Except.error e
      | Except.ok s1 =>
        let s2 := bindExternalInputs s1 names tensors
        match runOperators s2 proto.operators with
        | Except.error e => Except.error e
        | Except.ok s3 =>
          match resolveRoot s3 proto.outputs with
          | Except.error e => Except.error e
          | Except.ok r => Except.ok ⟨r.1, r.2⟩

/-! The command-line loader tool, embedded from `tools/loader/loader.cpp`. -/

/-- The image normalization modes (`loader.cpp` lines 33-37). -/
inductive ImageNormalizationMode where
  | k0to1
  | k0to256
  | k128to127
deriving DecidableEq, Repr

/-- `strToImageNormalizationMode` (`loader.cpp` lines 39-48): maps the three
mode strings to their modes; any other string reaches the failing assertion,
modelled as `none`. -/
def strToImageNormalizationMode (str : String) :
    Option ImageNormalizationMode :=
  if str = "0to1" then some ImageNormalizationMode.k0to1
  else if str = "0to256" then some ImageNormalizationMode.k0to256
  else if str = "128to127" then some ImageNormalizationMode.k128to127
  else none

/-- `normModeToRange` (`loader.cpp` lines 51-62): the switch covers every
mode and returns its numeric range; the failing assertion after the switch
is modelled as the absent fourth case (`none` is never produced).  The range
bounds are the exactly representable values 0, 1, 256, -128, 127. -/
def normModeToRange (mode : ImageNormalizationMode) : Option (Int × Int) :=
  match mode with
  | ImageNormalizationMode.k0to1 => some (0, 1)
  | ImageNormalizationMode.k0to256 => some (0, 256)
  | ImageNormalizationMode.k128to127 => some (-128, 127)

/-- A decoded PNG image as produced by the external `readPngImage`: height,
width, a grayscale flag, and the pixel values indexed (x, y, z) with x over
height, y over width and z over channels.  Pixel values are left abstract as
integers since the preprocessing loop only copies them. -/
structure PngImage where
  height : Nat
  width : Nat
  isGray : Bool
  pix : Nat → Nat → Nat → Int

/-- The result tensor of `loadImagesAndPreprocess`: element kind, shape, and
the value at each (n, c, x, y) index. -/
structure ResultTensor where
  elemKind : ElemKind
  shape : List Nat
  val : Nat → Nat → Nat → Nat → Int

/-- A single write `RH.at(\x7bn, c, x, y\x7d) = v` into the result handle. -/
def updAt (f : Nat → Nat → Nat → Nat → Int) (n c x y : Nat) (v : Int) :
    Nat → Nat → Nat → Nat → Int :=
  fun n' c' x' y' => if n' = n ∧ c' = c ∧ x' = x ∧ y' = y then v else f n' c' x' y'

/-- The innermost loop of `loadImagesAndPreprocess` (`loader.cpp` line 99):
for x in [0, H), write `pix x` at (n, c, x, y). -/
def foldX (n c y : Nat) (pix : Nat → Int) (H : Nat)
    (f : Nat → Nat → Nat → Nat → Int) : Nat → Nat → Nat → Nat → Int :=
  (List.range H).foldl (fun a x => updAt a n c x y (pix x)) f

/-- The middle loop of `loadImagesAndPreprocess` (`loader.cpp` line 98):
for y in [0, W), run the x loop. -/
def foldY (n c : Nat) (pix2 : Nat → Nat → Int) (H W : Nat)
    (f : Nat → Nat → Nat → Nat → Int) : Nat → Nat → Nat → Nat → Int :=
  (List.range W).foldl (fun a y => foldX n c y (fun x => pix2 x y) H a) f

/-- The channel loop of `loadImagesAndPreprocess` (`loader.cpp` lines
97-103): for z in [0, numChannels), write image channel z into output
channel numChannels - 1 - z (BGR conversion):
`RH.at(\x7bn, numChannels - 1 - z, x, y\x7d) = imageH.at(\x7bx, y, z\x7d)`. -/
def writeImage (n C : Nat) (img : PngImage)
    (f : Nat → Nat → Nat → Nat → Int) : Nat → Nat → Nat → Nat → Int :=
  (List.range C).foldl
    (fun a z => foldY n (C - 1 - z) (fun x y => img.pix x y z) img.height img.width a) f

/-- The per-image loop of `loadImagesAndPreprocess` (`loader.cpp` lines
84-104): check each image's dimensions against the first image's, then copy
its pixels; a mismatch reaches a failing assertion, modelled as `none`. -/
def processImages (H W C : Nat) :
    (Nat → Nat → Nat → Nat → Int) → Nat → List PngImage →
    Option (Nat → Nat → Nat → Nat → Int)
  | f, _, [] => some f
  | f, n, img :: rest =>
    if img.height = H ∧ img.width = W ∧ (if img.isGray then 1 else 3) = C then
      processImages H W C (writeImage n C img f) (n + 1) rest
    else none

/-- `loadImagesAndPreprocess` (`loader.cpp` lines 64-105): takes the decoded
images (file reading and range normalization happen in the external
`readPngImage`), asserts the list non-empty, takes height, width and channel
count from the first image, resets the result to a Float tensor of shape
\x7bnumImages, numChannels, imgHeight, imgWidth\x7d and copies every image
with the channel order reversed. -/
def loadImagesAndPreprocess (imgs : List PngImage) : Option ResultTensor :=
  match imgs with
  | [] => none
  | first :: _ =>
    let imgHeight := first.height
    let imgWidth := first.width
    let numChannels := if first.isGray then 1 else 3
    match processImages imgHeight imgWidth numChannels (fun _ _ _ _ => 0) 0 imgs with
    | some f =>
      some ⟨ElemKind.FloatTy, [imgs.length, numChannels, imgHeight, imgWidth], f⟩
    | none => none

/-- The model-format selection result of `main` (`loader.cpp` lines
240-251): either the Caffe2 two-file reader with its structure and weights
file names, or the single-file ONNX reader. -/
inductive FormatPick where
  | caffe2 (netDescFilename : String) (netWeightFilename : String)
  | onnx (modelFilename : String)
deriving DecidableEq, Repr

/-- The format selection logic of `main` (`loader.cpp` lines 236-251): with
one path that is a directory, the Caffe2 reader on the fixed file names
inside it; with one path that is not a directory, the ONNX reader; with two
paths, the Caffe2 reader on structure then weights.  Any other count fails
the `modelPathOpt.size() <= 2` assertion (or the OneOrMore constraint),
modelled as `none`. -/
def selectModelFormat (modelPathOpt : List String) (isDir : String → Bool) :
    Option FormatPick :=
  match modelPathOpt with
  | [p] =>
    if isDir p then
      some (FormatPick.caffe2 (p ++ "/predict_net.pb") (p ++ "/init_net.pb"))
    else some (FormatPick.onnx p)
  | [p0, p1] => some (FormatPick.caffe2 p0 p1)
  | _ => none

/-! Helper lemmas. -/

/-- Finding in an appended list when the first part has no match. -/
theorem find?_append_of_none {α : Type} {p : α → Bool} {l1 l2 : List α}
    (h : l1.find? p = none) : (l1 ++ l2).find? p = l2.find? p := by
  rw [List.find?_append, h, Option.none_or]

/-- A well-formedness condition on the Weight Table: every memoized tensor
was materialized from a recorded initializer entry.  It holds for every
state the loader can reach, since `getTensorByName` is the only operation
that fills the cache. -/
def cacheBackedByInits (s : LoaderState) : Prop :=
  ∀ p ∈ s.tensorCache, (s.initializers.find? (fun e => e.name == p.1)).isSome

/-! Claim theorems. -/

/-- C2: if the binding name list and tensor list have unequal lengths,
construction fails with an invalid-argument failure; the result is the same
for every file system `fs`, so the failure occurs before any model file is
opened or read. -/
theorem c2_unequal_binding_lists_fail (fs : String → Option GraphProtoModel)
    (modelDescFilename : String) (names : List String) (tensors : List Nat)
    (h : names.length ≠ tensors.length) :
    construct fs modelDescFilename names tensors =
      Except.error LoadError.invalidArgument := by
  simp [construct, h]

/-- C2 witness: one name and no tensor fails with invalid-argument even on an
empty file system. -/
theorem c2_witness :
    construct (fun _ => none) "model.onnx" ["data"] [] =
      Except.error LoadError.invalidArgument :=
  c2_unequal_binding_lists_fail (fun _ => none) "model.onnx" ["data"] []
    (by decide)

/-- C3: for a name not currently registered, `getOrCreateNodeByName`
synthesizes and registers a new public Variable node, and a second call
returns the very same node and leaves the state unchanged (idempotent
placeholder creation). -/
theorem c3_get_or_create_idempotent (s : LoaderState) (name : String)
    (h : lookupName s name = none) :
    getOrCreateNodeByName (getOrCreateNodeByName s name).1 name =
      getOrCreateNodeByName s name ∧
    (getOrCreateNodeByName s name).1.g[(getOrCreateNodeByName s name).2]? =
      some ⟨NodeKind.varNode VisibilityKind.Public none none, name, []⟩ ∧
    lookupName (getOrCreateNodeByName s name).1 name =
      some (getOrCreateNodeByName s name).2 := by
  have hf : s.nodeByName.find? (fun p => p.1 == name) = none := by
    unfold lookupName at h
    exact Option.map_eq_none.mp h
  have heq : getOrCreateNodeByName s name =
      ({ s with
          g := s.g ++ [⟨NodeKind.varNode VisibilityKind.Public none none, name, []⟩],
          nodeByName := s.nodeByName ++ [(name, s.g.length)] }, s.g.length) := by
    rw [getOrCreateNodeByName, h]
  have hlook' : lookupName
      { s with
          g := s.g ++ [⟨NodeKind.varNode VisibilityKind.Public none none, name, []⟩],
          nodeByName := s.nodeByName ++ [(name, s.g.length)] } name =
      some s.g.length := by
    show Option.map (fun p => p.2)
      ((s.nodeByName ++ [(name, s.g.length)]).find? (fun p => p.1 == name)) =
        some s.g.length
    rw [find?_append_of_none hf]
    simp [List.find?]
  refine ⟨?_, ?_, ?_⟩
  · rw [heq]
    show getOrCreateNodeByName _ name = _
    rw [getOrCreateNodeByName, hlook']
  · rw [heq]
    exact List.getElem?_concat_length _ _
  · rw [heq]
    exact hlook'

/-- C3 witness: creating "x" in the empty state twice returns the same
public Variable node. -/
theorem c3_witness :
    getOrCreateNodeByName (getOrCreateNodeByName emptyState "x").1 "x" =
      getOrCreateNodeByName emptyState "x" :=
  (c3_get_or_create_idempotent emptyState "x" (by decide)).1

/-- C4: registering a name already present fails with a duplicate-name
failure, the state is returned unchanged and the existing name-to-node
mapping is never replaced. -/
theorem c4_duplicate_registration_rejected (s : LoaderState) (name : String)
    (nid : Nat) (h : hasNodeByName s name = true) :
    registerNode s name nid = (s, some LoadError.duplicateName) ∧
    lookupName (registerNode s name nid).1 name = lookupName s name := by
  constructor <;> simp [registerNode, h]

/-- C4 witness: re-registering "a" in a state that maps "a" to node 0 fails
with duplicate-name and keeps the state. -/
theorem c4_witness :
    registerNode ⟨[], [("a", 0)], [], []⟩ "a" 5 =
      (⟨[], [("a", 0)], [], []⟩, some LoadError.duplicateName) :=
  (c4_duplicate_registration_rejected ⟨[], [("a", 0)], [], []⟩ "a" 5
    (by decide)).1

/-- C5: `getTensorByName` is memoized and deterministic: a successful lookup
is repeatable with the identical tensor (same shape, element kind and byte
content) and no further state change; a name with a recorded initializer
always succeeds; a name with no recorded initializer fails with a not-found
kind (in any state whose cache was filled from the recorded entries). -/
theorem c5_tensor_lookup_memoized (s : LoaderState) (name : String) :
    (∀ s' t, getTensorByName s name = (s', Except.ok t) →
      getTensorByName s' name = (s', Except.ok t)) ∧
    ((s.initializers.find? (fun e => e.name == name)).isSome →
      ∃ s' t, getTensorByName s name = (s', Except.ok t)) ∧
    (cacheBackedByInits s →
      s.initializers.find? (fun e => e.name == name) = none →
      getTensorByName s name = (s, Except.error LoadError.notFound)) := by
  refine ⟨?_, ?_, ?_⟩
  · intro s' t hcall
    match hc : s.tensorCache.find? (fun p => p.1 == name) with
    | some p =>
      rw [getTensorByName, hc] at hcall
      obtain ⟨rfl, rfl⟩ : s = s' ∧ p.2 = t := by
        refine ⟨congrArg Prod.fst hcall, ?_⟩
        have := congrArg Prod.snd hcall
        simpa using this
      rw [getTensorByName, hc]
    | none =>
      match hi : s.initializers.find? (fun e => e.name == name) with
      | some e =>
        rw [getTensorByName, hc, hi] at hcall
        obtain ⟨hs, ht⟩ : ({ s with tensorCache :=
            s.tensorCache ++ [(name, materializeTensor e)] } = s' ∧
            materializeTensor e = t) := by
          refine ⟨congrArg Prod.fst hcall, ?_⟩
          have := congrArg Prod.snd hcall
          simpa using this
        subst hs
        subst ht
        rw [getTensorByName]
        simp only [find?_append_of_none hc]
        simp [List.find?]
      | none =>
        rw [getTensorByName, hc, hi] at hcall
        have := congrArg Prod.snd hcall
        simp at this
  · intro hsome
    match hc : s.tensorCache.find? (fun p => p.1 == name) with
    | some p => exact ⟨s, p.2, by rw [getTensorByName, hc]⟩
    | none =>
      match hi : s.initializers.find? (fun e => e.name == name) with
      | some e =>
        exact ⟨_, materializeTensor e, by rw [getTensorByName, hc, hi]⟩
      | none => rw [hi] at hsome; simp at hsome
  · intro hwf hnone
    match hc : s.tensorCache.find? (fun p => p.1 == name) with
    | some p =>
      have hmem := List.mem_of_find?_eq_some hc
      have hpn : p.1 = name := by
        have hbeq := List.find?_some hc
        simp at hbeq
        exact hbeq
      have := hwf p hmem
      rw [hpn, hnone] at this
      simp at this
    | none => rw [getTensorByName, hc, hnone]

/-- C5 witness: in a state recording initializer "w", `getTensorByName`
succeeds. -/
theorem c5_witness :
    ∃ s' t,
      getTensorByName ⟨[], [], [⟨"w", ElemKind.FloatTy, [2], [5, 6]⟩], []⟩ "w" =
        (s', Except.ok t) :=
  (c5_tensor_lookup_memoized ⟨[], [], [⟨"w", ElemKind.FloatTy, [2], [5, 6]⟩], []⟩
    "w").2.1 (by decide)

/-- C6: an operator whose type tag has no registered translation fails with
an unsupported-operator failure and mutates nothing, and any operator list
containing it never loads successfully (the whole import aborts). -/
theorem c6_unsupported_operator_aborts (s : LoaderState) (op : OpEntry)
    (h : op.typeTag ∉ supportedOps) :
    loadOperator s op = (s, some LoadError.unsupportedOperator) ∧
    ∀ pre rest s', runOperators s (pre ++ op :: rest) ≠ Except.ok s' := by
  have hop : ∀ s0 : LoaderState,
      loadOperator s0 op = (s0, some LoadError.unsupportedOperator) := by
    intro s0
    simp [loadOperator, h]
  refine ⟨hop s, ?_⟩
  intro pre
  induction pre generalizing s with
  | nil =>
    intro rest s' hc
    rw [List.nil_append, runOperators, hop s] at hc
    simp at hc
  | cons q pre ih =>
    intro rest s' hc
    rw [List.cons_append, runOperators] at hc
    match hq : loadOperator s q with
    | (s1, none) =>
      rw [hq] at hc
      exact ih s1 rest s' hc
    | (s1, some e) =>
      rw [hq] at hc
      simp at hc

/-- C6 witness: the unregistered tag "Foo" fails with unsupported-operator
and leaves the empty state untouched. -/
theorem c6_witness :
    loadOperator emptyState ⟨"Foo", [], []⟩ =
      (emptyState, some LoadError.unsupportedOperator) :=
  (c6_unsupported_operator_aborts emptyState ⟨"Foo", [], []⟩ (by decide)).1

/-- C7: the -model argument list selects the format reader: one directory
path selects the two-file Caffe2 schema on predict_net.pb and init_net.pb
inside it; one non-directory path selects the single-file ONNX schema; two
paths select the Caffe2 schema with the first as structure file and the
second as weights file. -/
theorem c7_format_selection (p : String) (isDir : String → Bool) :
    (isDir p = true →
      selectModelFormat [p] isDir =
        some (FormatPick.caffe2 (p ++ "/predict_net.pb") (p ++ "/init_net.pb"))) ∧
    (isDir p = false →
      selectModelFormat [p] isDir = some (FormatPick.onnx p)) ∧
    (∀ p1, selectModelFormat [p, p1] isDir =
      some (FormatPick.caffe2 p p1)) := by
  refine ⟨fun h => by simp [selectModelFormat, h],
    fun h => by simp [selectModelFormat, h],
    fun p1 => by simp [selectModelFormat]⟩

/-- C7 witness: a directory path selects the Caffe2 reader on the fixed file
names. -/
theorem c7_witness :
    selectModelFormat ["d"] (fun _ => true) =
      some (FormatPick.caffe2 ("d" ++ "/predict_net.pb") ("d" ++ "/init_net.pb")) :=
  (c7_format_selection "d" (fun _ => true)).1 rfl

/-- C9: `strToImageNormalizationMode` returns a mode exactly for "0to1",
"0to256" and "128to127" and reaches the failing assertion (modelled `none`)
for every other string; `normModeToRange` returns (0, 1), (0, 256) and
(-128, 127) for the three modes, and its failing-assertion branch is
unreachable: it returns a range for every valid mode value. -/
theorem c9_normalization_modes :
    strToImageNormalizationMode "0to1" = some ImageNormalizationMode.k0to1 ∧
    strToImageNormalizationMode "0to256" = some ImageNormalizationMode.k0to256 ∧
    strToImageNormalizationMode "128to127" = some ImageNormalizationMode.k128to127 ∧
    (∀ s : String, s ≠ "0to1" → s ≠ "0to256" → s ≠ "128to127" →
      strToImageNormalizationMode s = none) ∧
    normModeToRange ImageNormalizationMode.k0to1 = some (0, 1) ∧
    normModeToRange ImageNormalizationMode.k0to256 = some (0, 256) ∧
    normModeToRange ImageNormalizationMode.k128to127 = some (-128, 127) ∧
    ∀ m : ImageNormalizationMode, (normModeToRange m).isSome := by
  refine ⟨by decide, by decide, by decide, ?_, by decide, by decide, by decide, ?_⟩
  · intro s h1 h2 h3
    simp [strToImageNormalizationMode, h1, h2, h3]
  · intro m
    cases m <;> decide

/-- C9 witness: an unknown mode string reaches the failing assertion. -/
theorem c9_witness : strToImageNormalizationMode "0to9" = none :=
  c9_normalization_modes.2.2.2.1 "0to9" (by decide) (by decide) (by decide)

/-- The state produced by the external-input binding call of `main`
(`loader.cpp` lines 268-270): names data_0, gpu_0/data_0, softmax_expected
bound to the tensors data, data, expectedSoftmax, where tensor reference 0
stands for `data` and 1 for `expectedSoftmax`. -/
def mainBindState : LoaderState :=
  bindExternalInputs emptyState ["data_0", "gpu_0/data_0", "softmax_expected"]
    [0, 0, 1]

/-- C10: the same tensor reference supplied at two positions under distinct
names creates two distinct public Variable nodes (indices 0 and 1) that both
alias the same caller-owned buffer (tensor reference 0); many names mapping
to one tensor is permitted, while registering the same name again is
rejected with a duplicate-name failure. -/
theorem c10_aliased_tensor_binding :
    mainBindState.g.get? 0 =
      some ⟨NodeKind.varNode VisibilityKind.Public (some 0) none, "data_0", []⟩ ∧
    mainBindState.g.get? 1 =
      some ⟨NodeKind.varNode VisibilityKind.Public (some 0) none, "gpu_0/data_0", []⟩ ∧
    lookupName mainBindState "data_0" = some 0 ∧
    lookupName mainBindState "gpu_0/data_0" = some 1 ∧
    registerNode mainBindState "data_0" 99 =
      (mainBindState, some LoadError.duplicateName) := by
  decide

/-- A successful root resolution yields exactly one Save node, returns its
index, and that Save node is reachable from a public Variable. -/
theorem resolveRoot_ok {s : LoaderState} {outs : List String}
    {r : LoaderState × Nat} (h : resolveRoot s outs = Except.ok r) :
    countSaves r.1.g = 1 ∧
    (∃ nd, r.1.g[r.2]? = some nd ∧ nd.kind = NodeKind.save) ∧
    rootReachesPublicVar r.1.g r.2 = true := by
  unfold resolveRoot at h
  dsimp only at h
  split at h
  case h_2 => simp at h
  case h_1 out =>
    split at h
    case h_2 => simp at h
    case h_1 n hn =>
      split at h
      case isFalse => simp at h
      case isTrue hcond =>
        rw [Bool.and_eq_true] at hcond
        obtain ⟨h1, h2⟩ := hcond
        obtain rfl := Except.ok.inj h
        refine ⟨?_, ⟨_, List.getElem?_concat_length _ _, rfl⟩, ?_⟩
        · have h1' := h1
          simp only [beq_iff_eq] at h1'
          exact h1'
        · exact h2

/-- C1: every successfully completed construction yields a graph with
exactly one Save/Output node; `getRoot` returns that node, and it is
transitively reachable from at least one public Variable node. -/
theorem c1_unique_reachable_root (fs : String → Option GraphProtoModel)
    (modelDescFilename : String) (names : List String) (tensors : List Nat)
    (ld : ONNXModelLoader)
    (h : construct fs modelDescFilename names tensors = Except.ok ld) :
    countSaves ld.state.g = 1 ∧
    (∃ nd, ld.state.g[getRoot ld]? = some nd ∧ nd.kind = NodeKind.save) ∧
    rootReachesPublicVar ld.state.g (getRoot ld) = true := by
  unfold construct at h
  split at h
  case isTrue => simp at h
  case isFalse =>
    split at h
    case h_1 => simp at h
    case h_2 proto hproto =>
      split at h
      case h_1 e he => simp at h
      case h_2 s1 hs1 =>
        dsimp only at h
        split at h
        case h_1 e he => simp at h
        case h_2 s3 hs3 =>
          split at h
          case h_1 e he => simp at h
          case h_2 r hr =>
            obtain rfl : ONNXModelLoader.mk r.1 r.2 = ld := Except.ok.inj h
            exact resolveRoot_ok hr

/-- The file system of the C1 witness: a single ONNX file holding one
initializer, one Identity operator and one declared output. -/
def fsA : String → Option GraphProtoModel := fun f =>
  if f = "model.onnx" then
    some ⟨[⟨"weight", ElemKind.FloatTy, [4], [1, 2, 3, 4]⟩],
          [⟨"Identity", ["data"], ["out"]⟩], ["out"]⟩
  else none

/-- The loader produced by the C1 witness construction. -/
def ldA : ONNXModelLoader :=
  ((construct fsA "model.onnx" ["data"] [0]).toOption).getD ⟨emptyState, 0⟩

/-- C1 witness: the concrete construction succeeds and its graph has exactly
one Save node, returned by `getRoot` and reachable from a public Variable. -/
theorem c1_witness :
    countSaves ldA.state.g = 1 ∧
    (∃ nd, ldA.state.g[getRoot ldA]? = some nd ∧ nd.kind = NodeKind.save) ∧
    rootReachesPublicVar ldA.state.g (getRoot ldA) = true :=
  c1_unique_reachable_root fsA "model.onnx" ["data"] [0] ldA (by rfl)

/-- Pointwise description of the x loop: it writes `pix x` at (n, c, x, y)
for every x below H and leaves every other cell alone. -/
theorem foldX_spec (n c y : Nat) (pix : Nat → Int) (H : Nat)
    (f : Nat → Nat → Nat → Nat → Int) (n' c' x' y' : Nat) :
    foldX n c y pix H f n' c' x' y' =
      if n' = n ∧ c' = c ∧ x' < H ∧ y' = y then pix x' else f n' c' x' y' := by
  induction H with
  | zero =>
    rw [foldX, List.range_zero, List.foldl_nil, if_neg]
    intro hcon
    omega
  | succ H ih =>
    rw [foldX, List.range_succ, List.foldl_append, List.foldl_cons,
      List.foldl_nil]
    rw [show (List.range H).foldl (fun a x => updAt a n c x y (pix x)) f =
      foldX n c y pix H f from rfl]
    rw [updAt]
    by_cases hlast : n' = n ∧ c' = c ∧ x' = H ∧ y' = y
    · obtain ⟨rfl, rfl, rfl, rfl⟩ := hlast
      simp
    · rw [if_neg hlast, ih]
      by_cases hin : n' = n ∧ c' = c ∧ x' < H ∧ y' = y
      · rw [if_pos hin,
          if_pos ⟨hin.1, hin.2.1, Nat.lt_succ_of_lt hin.2.2.1, hin.2.2.2⟩]
      · rw [if_neg hin, if_neg ?_]
        intro hcon
        obtain ⟨ha, hb, hcx, hd⟩ := hcon
        rcases Nat.lt_succ_iff_lt_or_eq.mp hcx with hx | hx
        · exact hin ⟨ha, hb, hx, hd⟩
        · exact hlast ⟨ha, hb, hx, hd⟩

/-- Pointwise description of the y-x double loop: it writes `pix2 x y` at
(n, c, x, y) for x below H and y below W and leaves every other cell
alone. -/
theorem foldY_spec (n c : Nat) (pix2 : Nat → Nat → Int) (H W : Nat)
    (f : Nat → Nat → Nat → Nat → Int) (n' c' x' y' : Nat) :
    foldY n c pix2 H W f n' c' x' y' =
      if n' = n ∧ c' = c ∧ x' < H ∧ y' < W then pix2 x' y' else f n' c' x' y' := by
  induction W with
  | zero =>
    rw [foldY, List.range_zero, List.foldl_nil, if_neg]
    intro hcon
    omega
  | succ W ih =>
    rw [foldY, List.range_succ, List.foldl_append, List.foldl_cons,
      List.foldl_nil]
    rw [show (List.range W).foldl
      (fun a y => foldX n c y (fun x => pix2 x y) H a) f =
      foldY n c pix2 H W f from rfl]
    rw [foldX_spec]
    by_cases hlast : n' = n ∧ c' = c ∧ x' < H ∧ y' = W
    · obtain ⟨rfl, rfl, hx, rfl⟩ := hlast
      rw [if_pos ⟨rfl, rfl, hx, rfl⟩, if_pos ⟨rfl, rfl, hx, Nat.lt_succ_self _⟩]
    · rw [if_neg hlast, ih]
      by_cases hin : n' = n ∧ c' = c ∧ x' < H ∧ y' < W
      · rw [if_pos hin,
          if_pos ⟨hin.1, hin.2.1, hin.2.2.1, Nat.lt_succ_of_lt hin.2.2.2⟩]
      · rw [if_neg hin, if_neg ?_]
        intro hcon
        obtain ⟨ha, hb, hcx, hd⟩ := hcon
        rcases Nat.lt_succ_iff_lt_or_eq.mp hd with hy | hy
        · exact hin ⟨ha, hb, hcx, hy⟩
        · exact hlast ⟨ha, hb, hcx, hy⟩

/-- Pointwise description of a prefix of the channel loop: after the first k
channel iterations, output channels from C - k up are written with the
BGR-reversed source channel and everything else is untouched. -/
theorem writeImage_aux (n : Nat) (img : PngImage) (C : Nat)
    (f : Nat → Nat → Nat → Nat → Int) (k : Nat) (hk : k ≤ C)
    (n' c' x' y' : Nat) :
    (List.range k).foldl
      (fun a z =>
        foldY n (C - 1 - z) (fun x y => img.pix x y z) img.height img.width a)
      f n' c' x' y' =
    if n' = n ∧ c' < C ∧ C - k ≤ c' ∧ x' < img.height ∧ y' < img.width then
      img.pix x' y' (C - 1 - c')
    else f n' c' x' y' := by
  induction k with
  | zero =>
    rw [List.range_zero, List.foldl_nil, if_neg]
    intro hcon
    omega
  | succ k ih =>
    have hk' : k ≤ C := Nat.le_of_succ_le hk
    rw [List.range_succ, List.foldl_append, List.foldl_cons, List.foldl_nil]
    rw [foldY_spec]
    rw [ih hk']
    by_cases h1 : n' = n ∧ c' = C - 1 - k ∧ x' < img.height ∧ y' < img.width
    · obtain ⟨hn, hc, hx, hy⟩ := h1
      rw [if_pos ⟨hn, hc, hx, hy⟩, if_pos ⟨hn, by omega, by omega, hx, hy⟩]
      have hzz : C - 1 - c' = k := by omega
      rw [hzz]
    · rw [if_neg h1]
      by_cases h2 : n' = n ∧ c' < C ∧ C - k ≤ c' ∧ x' < img.height ∧ y' < img.width
      · rw [if_pos h2, if_pos ⟨h2.1, h2.2.1, by omega, h2.2.2.2⟩]
      · rw [if_neg h2, if_neg ?_]
        intro hcon
        obtain ⟨hn, hcC, hck, hx, hy⟩ := hcon
        rcases Nat.lt_or_ge c' (C - k) with hlt | hge
        · exact h1 ⟨hn, by omega, hx, hy⟩
        · exact h2 ⟨hn, hcC, hge, hx, hy⟩

/-- Pointwise description of one image copy (`loader.cpp` lines 97-103):
output channel c of row n receives source channel C - 1 - c, every cell
outside row n or out of range is untouched. -/
theorem writeImage_spec (n C : Nat) (img : PngImage)
    (f : Nat → Nat → Nat → Nat → Int) (n' c' x' y' : Nat) :
    writeImage n C img f n' c' x' y' =
      if n' = n ∧ c' < C ∧ x' < img.height ∧ y' < img.width then
        img.pix x' y' (C - 1 - c')
      else f n' c' x' y' := by
  rw [writeImage, writeImage_aux n img C f C le_rfl]
  by_cases h : n' = n ∧ c' < C ∧ x' < img.height ∧ y' < img.width
  · rw [if_pos ⟨h.1, h.2.1, by omega, h.2.2⟩, if_pos h]
  · rw [if_neg ?_, if_neg h]
    intro hcon
    exact h ⟨hcon.1, hcon.2.1, hcon.2.2.2⟩

/-- If every image matches the first image's dimensions, the per-image loop
completes. -/
theorem processImages_total (H W C : Nat) (imgs : List PngImage)
    (hdims : ∀ img ∈ imgs, img.height = H ∧ img.width = W ∧
      (if img.isGray then 1 else 3) = C) :
    ∀ (f : Nat → Nat → Nat → Nat → Int) (k : Nat),
      ∃ g, processImages H W C f k imgs = some g := by
  induction imgs with
  | nil => exact fun f k => ⟨f, rfl⟩
  | cons img rest ih =>
    intro f k
    rw [processImages, if_pos (hdims img (List.mem_cons_self _ _))]
    exact ih (fun i hi => hdims i (List.mem_cons_of_mem _ hi)) _ _

/-- Soundness of the per-image loop: rows below the starting index are
untouched, and row k + n holds image n with its channels reversed. -/
theorem processImages_sound (H W C : Nat) (imgs : List PngImage) :
    ∀ (f : Nat → Nat → Nat → Nat → Int) (k : Nat)
      (g : Nat → Nat → Nat → Nat → Int),
      processImages H W C f k imgs = some g →
      (∀ q c x y, q < k → g q c x y = f q c x y) ∧
      (∀ n (hn : n < imgs.length) z x y, z < C → x < H → y < W →
        g (k + n) (C - 1 - z) x y = (imgs.get ⟨n, hn⟩).pix x y z) := by
  induction imgs with
  | nil =>
    intro f k g h
    obtain rfl : f = g := Option.some.inj h
    exact ⟨fun _ _ _ _ _ => rfl, fun n hn => absurd hn (by simp)⟩
  | cons img rest ih =>
    intro f k g h
    rw [processImages] at h
    by_cases hd : img.height = H ∧ img.width = W ∧
      (if img.isGray then 1 else 3) = C
    case neg =>
      rw [if_neg hd] at h
      exact absurd h (by simp)
    case pos =>
    rw [if_pos hd] at h
    obtain ⟨hh, hw, hcc⟩ := hd
    have res := ih (writeImage k C img f) (k + 1) g h
    refine ⟨?_, ?_⟩
    · intro q c x y hq
      rw [res.1 q c x y (by omega), writeImage_spec, if_neg]
      intro hcon
      exact absurd hcon.1 (by omega)
    · intro n hn z x y hz hx hy
      cases n with
      | zero =>
        rw [Nat.add_zero, res.1 k (C - 1 - z) x y (Nat.lt_succ_self _),
          writeImage_spec,
          if_pos ⟨rfl, by omega, by rw [hh]; exact hx, by rw [hw]; exact hy⟩]
        have hzz : C - 1 - (C - 1 - z) = z := by omega
        rw [hzz]
        rfl
      | succ m =>
        have hm : m < rest.length := by
          simpa using Nat.lt_of_succ_lt_succ hn
        have hkm : k + (m + 1) = (k + 1) + m := by omega
        rw [hkm, res.2 m hm z x y hz hx hy]
        rfl

/-- C8: for every non-empty image list whose images all match the first
image's dimensions (the code's assertions), `loadImagesAndPreprocess`
produces a Float tensor of shape (numImages, numChannels, imgHeight,
imgWidth) taken from the first image, and for every image n, pixel (x, y)
and channel z, the input value at channel z is stored into output channel
numChannels - 1 - z (channel order reversed to BGR). -/
theorem c8_preprocess_bgr (first : PngImage) (rest : List PngImage)
    (hdims : ∀ img ∈ first :: rest,
      img.height = first.height ∧ img.width = first.width ∧
      (if img.isGray then 1 else 3) = (if first.isGray then 1 else 3)) :
    ∃ t, loadImagesAndPreprocess (first :: rest) = some t ∧
      t.elemKind = ElemKind.FloatTy ∧
      t.shape = [(first :: rest).length, (if first.isGray then 1 else 3),
        first.height, first.width] ∧
      ∀ n (hn : n < (first :: rest).length) z x y,
        z < (if first.isGray then 1 else 3) → x < first.height →
        y < first.width →
        t.val n ((if first.isGray then 1 else 3) - 1 - z) x y =
          ((first :: rest).get ⟨n, hn⟩).pix x y z := by
  obtain ⟨g, hg⟩ := processImages_total first.height first.width
    (if first.isGray then 1 else 3) (first :: rest) hdims
    (fun _ _ _ _ => 0) 0
  refine ⟨⟨ElemKind.FloatTy,
    [(first :: rest).length, (if first.isGray then 1 else 3),
      first.height, first.width], g⟩, ?_, rfl, rfl, ?_⟩
  · rw [loadImagesAndPreprocess]
    rw [hg]
  · intro n hn z x y hz hx hy
    have := (processImages_sound first.height first.width
      (if first.isGray then 1 else 3) (first :: rest)
      (fun _ _ _ _ => 0) 0 g hg).2 n hn z x y hz hx hy
    rw [Nat.zero_add] at this
    exact this

/-- The sample image of the C8 witness: 2 x 2, color, with distinguishable
pixel values. -/
def imgEx : PngImage :=
  ⟨2, 2, false, fun x y z => 100 * (x : Int) + 10 * (y : Int) + (z : Int)⟩

/-- C8 witness: preprocessing the single sample image succeeds with shape
(1, 3, 2, 2) and BGR-reversed channels. -/
theorem c8_witness :
    ∃ t, loadImagesAndPreprocess [imgEx] = some t ∧
      t.elemKind = ElemKind.FloatTy ∧
      t.shape = [[imgEx].length, (if imgEx.isGray then 1 else 3),
        imgEx.height, imgEx.width] ∧
      ∀ n (hn : n < [imgEx].length) z x y,
        z < (if imgEx.isGray then 1 else 3) → x < imgEx.height →
        y < imgEx.width →
        t.val n ((if imgEx.isGray then 1 else 3) - 1 - z) x y =
          ([imgEx].get ⟨n, hn⟩).pix x y z :=
  c8_preprocess_bgr imgEx [] (by
    intro img hm
    rw [List.mem_singleton] at hm
    subst hm
    exact ⟨rfl, rfl, rfl⟩)

end Glow



